import Mathlib

/-!
# A verification model of the Manageable dice-notation language

This file is a shallow embedding of the dice-rolling expression language of
`code/base/Parsing.py` (classes `DiceLexer` and `DiceParser`, built on the
`sly` LALR parser generator) together with the small result-presentation step
of `DiceRollerCog.roll` in `code/cogs/toys.py`.

Modelling conventions:

* Python integers are embedded as `Int`, Python floats as exact rationals
  (`ℚ`).  Every value a production can produce is a `PyVal`, either
  `pInt` or `pFloat`, mirroring Python's dynamic `int`/`float` distinction
  which the source observes via `isinstance(x, float)`.  Exact rationals are
  the usual idealisation of binary floating point here: no infinities or NaNs
  can arise because Python raises `ZeroDivisionError` instead of producing
  them, and every concrete value reached by the claims is represented
  exactly.
* The global `random.randint` stream is embedded as an oracle
  `R : ℕ → ℤ` indexed by the number of draws made so far; theorems that need
  in-range outcomes assume the oracle respects the requested bounds.
* `sly` interleaves reduction actions with LR parsing.  For accepted inputs
  the actions run exactly in post-order of the resulting parse tree, so we
  model parsing (to an `Expr` tree) separately from evaluation; for rejected
  inputs `parse` returns `None`, which the caller in `toys.py` observes as a
  `TypeError` — modelled as the `syntaxError` signal.
-/

/-- The token kinds of `DiceLexer` (`Parsing.py` lines 9-23):
`NUMBER` carries the integer value of its digit lexeme (`int(p.NUMBER)`). -/
inductive Token where
  | number (n : ℕ)
  | plus
  | minus
  | times
  | divide
  | lparen
  | rparen
  | dieRoll
deriving DecidableEq, Repr

/-- The `NUMBER` token for a just-finished digit run, if one is pending:
its value is `int(lexeme)`, accumulated base-10 digit by digit. -/
def flushNumber : Option ℕ → List Token
  | none => []
  | some n => [Token.number n]

/-- The seven one-character tokens of `DiceLexer` (`Parsing.py` lines 17-23). -/
def symbolToken (c : Char) : Option Token :=
  if c = '+' then some Token.plus
  else if c = '-' then some Token.minus
  else if c = '*' then some Token.times
  else if c = '/' then some Token.divide
  else if c = '(' then some Token.lparen
  else if c = ')' then some Token.rparen
  else if c = 'd' then some Token.dieRoll
  else none

/-- The scanner of `DiceLexer` as a single left-to-right pass, carrying the
value of the digit run currently being matched (`NUMBER = \d+` is
maximal-munch, so a run ends only at a non-digit or at the end of input).
A non-digit first flushes any pending `NUMBER`, then either emits its
one-character token, or — for spaces/tabs (`ignore = ' \t'`), newlines
(`ignore_newline`) and every other character (`DiceLexer.error`, which just
advances `self.index` by one) — emits nothing and scanning continues with
the next character.  (`\d` is modelled as the ASCII digits; the claims do
not exercise non-ASCII Unicode digits.) -/
def tokenizeAux : List Char → Option ℕ → List Token
  | [], pending => flushNumber pending
  | c :: cs, pending =>
    if c.isDigit then
      tokenizeAux cs (some (10 * pending.getD 0 + (c.toNat - 48)))
    else
      flushNumber pending ++
        match symbolToken c with
        | some t => t :: tokenizeAux cs none
        | none => tokenizeAux cs none

/-- `DiceLexer().tokenize` on a list of characters. -/
def tokenizeChars (cs : List Char) : List Token := tokenizeAux cs none

/-- `DiceLexer().tokenize` on a string. -/
def tokenize (s : String) : List Token :=
  tokenizeChars s.data

/-- The parse trees of the `DiceParser` grammar (`Parsing.py` lines 63-160):
one constructor per `expr` production. -/
inductive Expr where
  | lit (n : ℕ)
  | add (l r : Expr)
  | sub (l r : Expr)
  | mul (l r : Expr)
  | div (l r : Expr)
  | neg (e : Expr)
  | paren (e : Expr)
  | roll (l r : Expr)
deriving DecidableEq, Repr

/-- The one failure signal of the parser: `sly`'s `parse` returns `None` on
any syntax error, which `toys.py` surfaces via the `TypeError` handler. -/
inductive ParseError where
  | syntaxError
deriving DecidableEq, Repr

/-- Left binding powers encoding the `DiceParser.precedence` table
(lines 39-44): `PLUS`/`MINUS` < `TIMES`/`DIVIDE` < `UNARY_MINUS` < `DIE_ROLL`,
all the binary levels left-associative.  Level `i` gets binding power `2*i`. -/
def infixBindingPower : Token → Option ℕ
  | Token.plus => some 2
  | Token.minus => some 2
  | Token.times => some 4
  | Token.divide => some 4
  | Token.dieRoll => some 8
  | _ => none

/-- The operand binding power of `MINUS expr %prec UNARY_MINUS`: the unary
level sits between `TIMES`/`DIVIDE` (4) and `DIE_ROLL` (8). -/
def unaryMinusBindingPower : ℕ := 6

/-- Builds the binary `expr OP expr` node for an operator token.  Only the
five operator tokens are ever passed here; `dieRoll` is the catch-all. -/
def mkBinary : Token → Expr → Expr → Expr
  | Token.plus, l, r => Expr.add l r
  | Token.minus, l, r => Expr.sub l r
  | Token.times, l, r => Expr.mul l r
  | Token.divide, l, r => Expr.div l r
  | _, l, r => Expr.roll l r

/-- Precedence-climbing parser equivalent to `sly`'s LALR automaton for the
`DiceParser` grammar with its `precedence` table, written as one
fuel-structural function.  In the `none` state it parses one prefix
(`NUMBER`, unary `MINUS` — whose operand is parsed at the `UNARY_MINUS`
binding power — or a parenthesised expression); in the `some lhs` state it
runs the infix loop: while the next token is a binary operator of binding
power at least `minBP`, consume it, parse its right operand at one more
than the operator's power (all the binary levels are declared `left`), and
extend the left tree.  `fuel` only bounds the recursion; `2 * length + 2`
always suffices. -/
def parseStep : ℕ → ℕ → Option Expr → List Token → Except ParseError (Expr × List Token)
  | 0, _, _, _ => Except.error ParseError.syntaxError
  | Nat.succ fuel, minBP, none, ts =>
    match ts with
    | Token.number n :: rest => parseStep fuel minBP (some (Expr.lit n)) rest
    | Token.minus :: rest =>
      match parseStep fuel unaryMinusBindingPower none rest with
      | Except.error e => Except.error e
      | Except.ok (e, rest) => parseStep fuel minBP (some (Expr.neg e)) rest
    | Token.lparen :: rest =>
      match parseStep fuel 0 none rest with
      | Except.error e => Except.error e
      | Except.ok (e, rest) =>
        match rest with
        | Token.rparen :: rest2 => parseStep fuel minBP (some (Expr.paren e)) rest2
        | _ => Except.error ParseError.syntaxError
    | _ => Except.error ParseError.syntaxError
  | Nat.succ fuel, minBP, some lhs, ts =>
    match ts with
    | [] => Except.ok (lhs, [])
    | t :: rest =>
      match infixBindingPower t with
      | none => Except.ok (lhs, ts)
      | some bp =>
        if minBP ≤ bp then
          match parseStep fuel (bp + 1) none rest with
          | Except.error e => Except.error e
          | Except.ok (rhs, rest2) => parseStep fuel minBP (some (mkBinary t lhs rhs)) rest2
        else Except.ok (lhs, ts)

/-- `DiceParser.parse` on a token stream: the whole stream must reduce to a
single `statement := expr`; anything else is the syntax-error signal. -/
def parseTokens (ts : List Token) : Except ParseError Expr :=
  match parseStep (2 * ts.length + 2) 0 none ts with
  | Except.ok (e, []) => Except.ok e
  | Except.ok (_, _ :: _) => Except.error ParseError.syntaxError
  | Except.error e => Except.error e

/-- Tokenize and parse an input string, as `parser.parse(lexer.tokenize(dice))`. -/
def parseString (s : String) : Except ParseError Expr :=
  parseTokens (tokenize s)

/-- The dynamic numeric values of the evaluator: Python `int` or Python
`float` (floats idealised as exact rationals; see the header comment). -/
inductive PyVal where
  | pInt (i : ℤ)
  | pFloat (q : ℚ)
deriving DecidableEq, Repr

/-- The numeric content of a value. -/
def PyVal.toQ : PyVal → ℚ
  | PyVal.pInt i => (i : ℚ)
  | PyVal.pFloat q => q

/-- `True` for `int`s and for floats with no fractional part: the values for
which Python's `isinstance(x, float) and not x.is_integer()` test is false. -/
def PyVal.isIntegral : PyVal → Bool
  | PyVal.pInt _ => true
  | PyVal.pFloat q => q.den == 1

/-- `isinstance(x, float)`. -/
def PyVal.isFloat : PyVal → Bool
  | PyVal.pInt _ => false
  | PyVal.pFloat _ => true

/-- Python `+`: `int + int` is an `int`, otherwise a `float`. -/
def pyAdd : PyVal → PyVal → PyVal
  | PyVal.pInt x, PyVal.pInt y => PyVal.pInt (x + y)
  | a, b => PyVal.pFloat (a.toQ + b.toQ)

/-- Python binary `-`. -/
def pySub : PyVal → PyVal → PyVal
  | PyVal.pInt x, PyVal.pInt y => PyVal.pInt (x - y)
  | a, b => PyVal.pFloat (a.toQ - b.toQ)

/-- Python `*`. -/
def pyMul : PyVal → PyVal → PyVal
  | PyVal.pInt x, PyVal.pInt y => PyVal.pInt (x * y)
  | a, b => PyVal.pFloat (a.toQ * b.toQ)

/-- The runtime (non-syntax) error the evaluator can raise: Python raises
`ZeroDivisionError` from `/` when the divisor is zero. -/
inductive PyError where
  | zeroDivisionError
deriving DecidableEq, Repr

/-- Python `/` (true division): always a `float` on success, and a raised
`ZeroDivisionError` when the divisor is zero — Python floats do not produce
IEEE infinities or NaNs here. -/
def pyDiv (a b : PyVal) : Except PyError PyVal :=
  if b.toQ = 0 then Except.error PyError.zeroDivisionError
  else Except.ok (PyVal.pFloat (a.toQ / b.toQ))

/-- Python unary `-`: preserves `int`/`float`. -/
def pyNeg : PyVal → PyVal
  | PyVal.pInt x => PyVal.pInt (-x)
  | PyVal.pFloat q => PyVal.pFloat (-q)

/-- `math.ceil`: always returns an `int`. -/
def pyCeil (v : PyVal) : ℤ := ⌈v.toQ⌉

/-- `float(x)`. -/
def pyFloat (v : PyVal) : PyVal := PyVal.pFloat v.toQ

/-- `str` of a Python float, on the exact-rational idealisation: the shortest
terminating decimal expansion (every actual binary float prints as a
terminating decimal; integral floats print with a trailing `.0`).  Rationals
with no short terminating expansion fall back to a fraction rendering; they
are outside the float idealisation and unreached by the claims. -/
def floatStr (q : ℚ) : String :=
  match (List.range 28).find? (fun k => (q * (10 : ℚ) ^ k).den == 1) with
  | some 0 => toString q.num ++ ".0"
  | some (Nat.succ k) =>
    let scaled : ℤ := (q * (10 : ℚ) ^ (k + 1)).num
    let digits := toString scaled.natAbs
    let digits :=
      if digits.length ≤ k + 1 then
        String.mk (List.replicate (k + 2 - digits.length) '0') ++ digits
      else digits
    (if scaled < 0 then "-" else "") ++
      String.mk (digits.data.take (digits.data.length - (k + 1))) ++ "." ++
      String.mk (digits.data.drop (digits.data.length - (k + 1)))
  | none => toString q.num ++ "/" ++ toString q.den

/-- Python `str`/f-string rendering of a value. -/
def pyStr : PyVal → String
  | PyVal.pInt i => toString i
  | PyVal.pFloat q => floatStr q

/-- Python's `s[:-1]`: drop the last character. -/
def pyStrDropLast (s : String) : String := String.mk s.data.dropLast

/-- One die-outcome string fragment of the roll step string: the marker glyph,
the outcome, and the trailing space (`Parsing.py` lines 103-109; the crit
success/failure counters computed in that loop are dead code — their only
output line is commented out — and are not modelled). -/
def dieValueStr (v : ℤ) : String := "🎲" ++ toString v ++ " "

/-- The roll step string of `Parsing.py` lines 100-111: the header
`{number_of_dice}d{die_max_value}={roll_total}(`, one `dieValueStr` fragment
per outcome, then `step_string[:-1] + ')'` — note that for zero outcomes the
`[:-1]` removes the opening parenthesis itself. -/
def rollEntryString (count : ℕ) (dieMax : ℤ) (total : ℤ) (vals : List ℤ) : String :=
  pyStrDropLast
    (vals.foldl (fun s v => s ++ dieValueStr v)
      (toString count ++ "d" ++ toString dieMax ++ "=" ++ toString total ++ "(")) ++ ")"

/-- The ceiling trace entry `f'ceil({operand})={ceiled}'` of lines 69-72. -/
def ceilEntry (v : PyVal) (c : ℤ) : String :=
  "ceil(" ++ pyStr v ++ ")=" ++ toString c

/-- `isinstance(x, float) and not x.is_integer()`: whether a ceiling entry is
logged for an operand (lines 69-72). -/
def needsCeilEntry : PyVal → Bool
  | PyVal.pInt _ => false
  | PyVal.pFloat q => !(q.den == 1)

/-- The `invert_result` flag of lines 74-80: set exactly when the
(ceiled) number of dice is negative. -/
def rollInvert (numberOfDice : ℤ) : Bool := numberOfDice < 0

/-- The inversion trace entry `f'-({roll_total})={-roll_total}'` of
lines 117-120 (also the shape of the `UNARY_MINUS` entry of line 151 for
integer operands). -/
def invertEntry (t : ℤ) : String :=
  "-(" ++ toString t ++ ")=" ++ toString (-t)

/-- The die-rolling loop of lines 82-98: one `randint` draw per die.
If `die_max_value > 0` the requested bounds are `[1, die_max_value]`;
if `die_max_value < 0` they are `[die_max_value, -1]`; a zero-sided die
produces `0` without consuming a draw.  The oracle index `k` counts the
`randint` calls made so far. -/
def rollLoop (R : ℕ → ℤ) (dieMax : ℤ) : ℕ → ℕ → List ℤ × ℕ
  | 0, k => ([], k)
  | Nat.succ c, k =>
    if dieMax > 0 ∨ dieMax < 0 then
      let rest := rollLoop R dieMax c (k + 1)
      (R k :: rest.1, rest.2)
    else
      let rest := rollLoop R dieMax c k
      (0 :: rest.1, rest.2)

/-- The `expr DIE_ROLL expr` production (lines 63-122), applied to the two
already-evaluated operand values: ceil both operands (logging a `ceilEntry`
exactly when `needsCeilEntry`), invert on a negative count and roll the
absolute number of dice, sum the outcomes, append the roll step string, and
on inversion also append the inversion entry and negate the total.  The
result is always a Python `int`. -/
def rollProduction (R : ℕ → ℤ) (a b : PyVal) (log : List String) (k : ℕ) :
    PyVal × List String × ℕ :=
  let numberOfDice : ℤ := pyCeil a
  let dieMaxValue : ℤ := pyCeil b
  let log := if needsCeilEntry a then log ++ [ceilEntry a numberOfDice] else log
  let log := if needsCeilEntry b then log ++ [ceilEntry b dieMaxValue] else log
  let count : ℕ := numberOfDice.natAbs
  let rolled := rollLoop R dieMaxValue count k
  let dieValues := rolled.1
  let rollTotal := dieValues.sum
  let log := log ++ [rollEntryString count dieMaxValue rollTotal dieValues]
  if rollInvert numberOfDice then
    (PyVal.pInt (-rollTotal), log ++ [invertEntry rollTotal], rolled.2)
  else
    (PyVal.pInt rollTotal, log, rolled.2)

/-- The recursive evaluator: one case per `expr` production of `DiceParser`,
threading the `step_log` (appended exactly as the production actions do) and
the randomness-oracle index, and propagating a raised `ZeroDivisionError`.
Reduction actions run in post-order, as `sly` runs them on accepted input. -/
def evalExpr (R : ℕ → ℤ) : Expr → List String → ℕ →
    Except PyError PyVal × List String × ℕ
  | Expr.lit n, log, k => (Except.ok (PyVal.pInt n), log, k)
  | Expr.paren e, log, k => evalExpr R e log k
  | Expr.neg e, log, k =>
    match evalExpr R e log k with
    | (Except.error err, log, k) => (Except.error err, log, k)
    | (Except.ok a, log, k) =>
      let v := pyNeg a
      (Except.ok v, log ++ ["-(" ++ pyStr a ++ ")=" ++ pyStr v], k)
  | Expr.add l r, log, k =>
    match evalExpr R l log k with
    | (Except.error err, log, k) => (Except.error err, log, k)
    | (Except.ok a, log, k) =>
      match evalExpr R r log k with
      | (Except.error err, log, k) => (Except.error err, log, k)
      | (Except.ok b, log, k) =>
        let v := pyAdd a b
        (Except.ok v, log ++ [pyStr a ++ "+" ++ pyStr b ++ "=" ++ pyStr v], k)
  | Expr.sub l r, log, k =>
    match evalExpr R l log k with
    | (Except.error err, log, k) => (Except.error err, log, k)
    | (Except.ok a, log, k) =>
      match evalExpr R r log k with
      | (Except.error err, log, k) => (Except.error err, log, k)
      | (Except.ok b, log, k) =>
        let v := pySub a b
        (Except.ok v, log ++ [pyStr a ++ "-" ++ pyStr b ++ "=" ++ pyStr v], k)
  | Expr.mul l r, log, k =>
    match evalExpr R l log k with
    | (Except.error err, log, k) => (Except.error err, log, k)
    | (Except.ok a, log, k) =>
      match evalExpr R r log k with
      | (Except.error err, log, k) => (Except.error err, log, k)
      | (Except.ok b, log, k) =>
        let v := pyMul a b
        (Except.ok v, log ++ [pyStr a ++ "*" ++ pyStr b ++ "=" ++ pyStr v], k)
  | Expr.div l r, log, k =>
    match evalExpr R l log k with
    | (Except.error err, log, k) => (Except.error err, log, k)
    | (Except.ok a, log, k) =>
      match evalExpr R r log k with
      | (Except.error err, log, k) => (Except.error err, log, k)
      | (Except.ok b, log, k) =>
        match pyDiv a b with
        | Except.error err => (Except.error err, log, k)
        | Except.ok v =>
          (Except.ok v, log ++ [pyStr a ++ "/" ++ pyStr b ++ "=" ++ pyStr v], k)
  | Expr.roll l r, log, k =>
    match evalExpr R l log k with
    | (Except.error err, log, k) => (Except.error err, log, k)
    | (Except.ok a, log, k) =>
      match evalExpr R r log k with
      | (Except.error err, log, k) => (Except.error err, log, k)
      | (Except.ok b, log, k) => (Except.ok (rollProduction R a b log k).1,
          (rollProduction R a b log k).2.1, (rollProduction R a b log k).2.2)

/-- The mutable state of a `DiceParser` instance: its `step_log` field. -/
structure DiceParserState where
  stepLog : List String
deriving DecidableEq, Repr

/-- A freshly-constructed `DiceParser()`: empty step log. -/
def initState : DiceParserState := DiceParserState.mk []

/-- The failure signals a caller can observe from one `roll` evaluation. -/
inductive EvalError where
  | syntaxError
  | zeroDivisionError
deriving DecidableEq, Repr

/-- One top-level evaluation on a parser instance in state `st`: tokenize
and parse, evaluate starting from the instance's current `step_log`, and on
success run the `statement` production (lines 51-61): the result pairs the
accumulated step log with `float(value)`, and the instance's `step_log` is
reset to `[]`.  A raised `ZeroDivisionError` propagates, leaving the
partially extended log in the instance, exactly as the exception does in the
Python class (runtime exceptions fire inside a reduction action, so the log
holds precisely the entries of the actions that post-order-precede it).
On a syntax error `sly`'s `parse` returns `None` (surfaced by the caller's
`TypeError` handler) — but only after having executed the actions of
whatever reductions its LALR automaton completed before detecting the
error: parsing `"1+2+"`, for example, reduces `1+2` and appends `"1+2=3"`
to `self.step_log` before failing at end of input.  The post-error log thus
depends on the automaton's error-detection point, which this tree-based
model does not track, so the state component is `none` (left unmodelled) on
that path; `toys.py` constructs a fresh parser per command and abandons it
on a syntax error, so nothing downstream observes that state. -/
def evaluate (R : ℕ → ℤ) (input : String) (st : DiceParserState) :
    Except EvalError (List String × PyVal) × Option DiceParserState :=
  match parseString input with
  | Except.error _ => (Except.error EvalError.syntaxError, none)
  | Except.ok e =>
    match evalExpr R e st.stepLog 0 with
    | (Except.error _, log, _) =>
      (Except.error EvalError.zeroDivisionError, some (DiceParserState.mk log))
    | (Except.ok v, log, _) =>
      (Except.ok (log, pyFloat v), some (DiceParserState.mk []))

/-- The result-presentation step of `DiceRollerCog.roll`
(`toys.py` lines 397-398): `if result.is_integer(): result = int(result)`. -/
def presentedResult (q : ℚ) : PyVal :=
  if q.den = 1 then PyVal.pInt q.num else PyVal.pFloat q

/-! ## Helper definitions and lemmas -/

/-- One die outcome as the spec's trace grammar renders it: marker glyph and
outcome, without the loop's trailing space. -/
def dieGlyph (v : ℤ) : String := "🎲" ++ toString v

/-- Space-separated concatenation, the `"{o1} {o2} ... {oN}"` shape of the
spec's roll-entry format. -/
def spaceSeparated : List String → String
  | [] => ""
  | [x] => x
  | x :: y :: ys => x ++ " " ++ spaceSeparated (y :: ys)

theorem string_append_assoc (a b c : String) : a ++ b ++ c = a ++ (b ++ c) := by
  apply String.ext
  simp [String.data_append]

theorem data_pyStrDropLast (s : String) : (pyStrDropLast s).data = s.data.dropLast := rfl

theorem dieValueStr_eq (v : ℤ) : dieValueStr v = dieGlyph v ++ " " := by
  apply String.ext
  simp [dieValueStr, dieGlyph, String.data_append]

theorem pyStrDropLast_append_space (a : String) :
    pyStrDropLast (a ++ " ") = a := by
  apply String.ext
  rw [data_pyStrDropLast, String.data_append]
  show (a.data ++ [' ']).dropLast = a.data
  exact List.dropLast_concat

theorem foldl_dieValueStr_spaceSeparated (vals : List ℤ) (hne : vals ≠ []) :
    ∀ base : String,
      pyStrDropLast (vals.foldl (fun s v => s ++ dieValueStr v) base)
        = base ++ spaceSeparated (vals.map dieGlyph) := by
  induction vals with
  | nil => exact absurd rfl hne
  | cons v rest ih =>
    intro base
    cases rest with
    | nil =>
      show pyStrDropLast (base ++ dieValueStr v) = base ++ dieGlyph v
      rw [dieValueStr_eq, ← string_append_assoc, pyStrDropLast_append_space]
    | cons w ws =>
      have h1 : pyStrDropLast ((w :: ws).foldl (fun s v => s ++ dieValueStr v)
          (base ++ dieValueStr v)) = (base ++ dieValueStr v) ++
            spaceSeparated ((w :: ws).map dieGlyph) := ih (by simp) _
      show pyStrDropLast ((w :: ws).foldl (fun s v => s ++ dieValueStr v)
          (base ++ dieValueStr v)) = _
      rw [h1, dieValueStr_eq]
      show _ = base ++ (dieGlyph v ++ " " ++ spaceSeparated ((w :: ws).map dieGlyph))
      rw [string_append_assoc, string_append_assoc]

/-- For at least one die, the roll step string has exactly the spec's
parenthesised, space-separated form. -/
theorem rollEntryString_of_ne_nil (count : ℕ) (dieMax : ℤ) (total : ℤ)
    (vals : List ℤ) (hne : vals ≠ []) :
    rollEntryString count dieMax total vals
      = toString count ++ "d" ++ toString dieMax ++ "=" ++ toString total ++ "("
          ++ spaceSeparated (vals.map dieGlyph) ++ ")" := by
  unfold rollEntryString
  rw [foldl_dieValueStr_spaceSeparated vals hne]

/-- Rolling `n` dice with a nonzero number of sides consumes the next `n`
oracle draws, in order. -/
theorem rollLoop_draws (R : ℕ → ℤ) (dieMax : ℤ) (h : 0 < dieMax ∨ dieMax < 0) :
    ∀ n k, rollLoop R dieMax n k = ((List.range n).map (fun i => R (k + i)), k + n) := by
  intro n
  induction n with
  | zero => intro k; simp [rollLoop]
  | succ c ih =>
    intro k
    rw [List.range_succ_eq_map]
    simp only [rollLoop, if_pos h, ih (k + 1), List.map_cons, List.map_map]
    refine Prod.ext ?_ (by simp; omega)
    simp only [Nat.add_zero]
    congr 1
    apply List.map_congr_left
    intro i _
    show R (k + 1 + i) = R (k + (i + 1))
    congr 1
    omega

/-- A list of integers each within `[1, m]` sums to a value within
`[length, length * m]`. -/
theorem sum_bounds_of_mem (l : List ℤ) (m : ℤ) (h : ∀ v ∈ l, 1 ≤ v ∧ v ≤ m) :
    (l.length : ℤ) ≤ l.sum ∧ l.sum ≤ (l.length : ℤ) * m := by
  induction l with
  | nil => simp
  | cons v rest ih =>
    have hv := h v (by simp)
    have hr := ih (fun w hw => h w (by simp [hw]))
    simp only [List.sum_cons, List.length_cons]
    push_cast
    constructor
    · linarith [hv.1, hr.1]
    · have : rest.sum ≤ (rest.length : ℤ) * m := hr.2
      nlinarith [hv.2, hv.1, hr.1]

/-- A successful top-level evaluation always resets the instance's step log
to empty, and its returned trace and value come from running the evaluator
on the parsed tree starting from the instance's previous log. -/
theorem evaluate_ok_shape (R : ℕ → ℤ) (s : String) (st : DiceParserState)
    (t : List String) (v : PyVal) (st' : DiceParserState)
    (h : evaluate R s st = (Except.ok (t, v), some st')) :
    st' = initState ∧
      ∃ e val k, parseString s = Except.ok e ∧
        evalExpr R e st.stepLog 0 = (Except.ok val, t, k) ∧ v = pyFloat val := by
  unfold evaluate at h
  cases hp : parseString s with
  | error e =>
    simp only [hp] at h
    exact absurd (congrArg Prod.fst h) (by simp)
  | ok e =>
    simp only [hp] at h
    cases hv : evalExpr R e st.stepLog 0 with
    | mk res rest =>
      obtain ⟨log, k⟩ := rest
      cases res with
      | error err =>
        simp only [hv] at h
        exact absurd (congrArg Prod.fst h) (by simp)
      | ok val =>
        simp only [hv, Prod.mk.injEq, Except.ok.injEq, Option.some.injEq] at h
        refine ⟨h.2 ▸ rfl, e, val, k, rfl, ?_, (h.1.2 ▸ rfl)⟩
        rw [hv, h.1.1]

instance {ε α : Type} [DecidableEq ε] [DecidableEq α] : DecidableEq (Except ε α) :=
  fun x y =>
    match x, y with
    | Except.error a, Except.error b => decidable_of_iff (a = b) (by simp)
    | Except.error _, Except.ok _ => isFalse (by simp)
    | Except.ok _, Except.error _ => isFalse (by simp)
    | Except.ok a, Except.ok b => decidable_of_iff (a = b) (by simp)

theorem needsCeilEntry_eq_not_isIntegral (v : PyVal) :
    needsCeilEntry v = !v.isIntegral := by
  cases v <;> simp [needsCeilEntry, PyVal.isIntegral]

/-- Full characterisation of the roll production: dice count `ceil(left)`,
sides `ceil(right)`, ceiling entries exactly for non-integral operands and
before the roll entry, `|ceil(left)|` dice rolled, and on a negative count
the inversion entry and a negated total. -/
theorem rollProduction_characterization (R : ℕ → ℤ) (a b : PyVal)
    (log : List String) (k : ℕ) :
    rollProduction R a b log k
      = ((if pyCeil a < 0 then
            PyVal.pInt (-(rollLoop R (pyCeil b) (pyCeil a).natAbs k).1.sum)
          else PyVal.pInt (rollLoop R (pyCeil b) (pyCeil a).natAbs k).1.sum),
         log ++ (if a.isIntegral then [] else [ceilEntry a (pyCeil a)])
             ++ (if b.isIntegral then [] else [ceilEntry b (pyCeil b)])
             ++ [rollEntryString (pyCeil a).natAbs (pyCeil b)
                   (rollLoop R (pyCeil b) (pyCeil a).natAbs k).1.sum
                   (rollLoop R (pyCeil b) (pyCeil a).natAbs k).1]
             ++ (if pyCeil a < 0 then
                   [invertEntry (rollLoop R (pyCeil b) (pyCeil a).natAbs k).1.sum]
                 else []),
         (rollLoop R (pyCeil b) (pyCeil a).natAbs k).2) := by
  simp only [rollProduction, rollInvert, needsCeilEntry_eq_not_isIntegral,
    Bool.not_eq_true']
  by_cases h1 : a.isIntegral <;> by_cases h2 : b.isIntegral <;>
    by_cases h3 : pyCeil a < 0 <;>
      simp [h1, h2, h3, List.append_assoc]

/-! ## The claims -/

/-- **C5.** For every roll production, the dice count is `ceil(left)` and the
side count is `ceil(right)`; a `ceil(x)=y` trace entry is appended before the
roll entry for an operand exactly when that operand's value was not already
integral (Python `int`s and integral floats such as `4.0` produce no entry,
fractional floats such as `2.5` produce one).  The production rolls
`|ceil(left)|` dice and, when `ceil(left) < 0`, additionally appends the
inversion entry and negates the total. -/
theorem claim_C5_ceil_entries (R : ℕ → ℤ) (a b : PyVal) (log : List String) (k : ℕ) :
    rollProduction R a b log k
      = ((if pyCeil a < 0 then
            PyVal.pInt (-(rollLoop R (pyCeil b) (pyCeil a).natAbs k).1.sum)
          else PyVal.pInt (rollLoop R (pyCeil b) (pyCeil a).natAbs k).1.sum),
         log ++ (if a.isIntegral then [] else [ceilEntry a (pyCeil a)])
             ++ (if b.isIntegral then [] else [ceilEntry b (pyCeil b)])
             ++ [rollEntryString (pyCeil a).natAbs (pyCeil b)
                   (rollLoop R (pyCeil b) (pyCeil a).natAbs k).1.sum
                   (rollLoop R (pyCeil b) (pyCeil a).natAbs k).1]
             ++ (if pyCeil a < 0 then
                   [invertEntry (rollLoop R (pyCeil b) (pyCeil a).natAbs k).1.sum]
                 else []),
         (rollLoop R (pyCeil b) (pyCeil a).natAbs k).2) :=
  rollProduction_characterization R a b log k

theorem parseTokens_number_die_number (n m : ℕ) :
    parseTokens [Token.number n, Token.dieRoll, Token.number m]
      = Except.ok (Expr.roll (Expr.lit n) (Expr.lit m)) := rfl

theorem rollProduction_nat_operands (R : ℕ → ℤ) (n m : ℕ) (hm : 0 < m)
    (log : List String) (k : ℕ) :
    rollProduction R (PyVal.pInt n) (PyVal.pInt m) log k
      = (PyVal.pInt ((List.range n).map (fun i => R (k + i))).sum,
         log ++ [rollEntryString n (m : ℤ)
            ((List.range n).map (fun i => R (k + i))).sum
            ((List.range n).map (fun i => R (k + i)))],
         k + n) := by
  have hc : pyCeil (PyVal.pInt (n : ℤ)) = (n : ℤ) := by simp [pyCeil, PyVal.toQ]
  have hc2 : pyCeil (PyVal.pInt (m : ℤ)) = (m : ℤ) := by simp [pyCeil, PyVal.toQ]
  have hpos : (0 : ℤ) < (m : ℤ) := by exact_mod_cast hm
  have hninv : rollInvert (n : ℤ) = false := by
    simp only [rollInvert, decide_eq_false_iff_not, Int.not_lt]
    positivity
  simp only [rollProduction, hc, hc2, hninv, needsCeilEntry, Bool.false_eq_true,
    if_false, Int.natAbs_ofNat, rollLoop_draws R (m : ℤ) (Or.inl hpos)]

/-- **C1.** For every `n ≥ 0` and `m > 0` and any randomness source whose
draws respect the requested bounds (`randint(1, m)` for each die), evaluating
an input whose token stream is `NUMBER n, DIE_ROLL, NUMBER m` — the stream of
`"n d m"` — rolls exactly `n` dice (the next `n` oracle draws, in order),
each outcome lying in `[1, m]`, and returns a total within `[n, n*m]`; the
trace is the single roll entry listing exactly those `n` outcomes.
(Uniformity of each draw is the contract of `random.randint`, delegated here
to the oracle hypothesis.) -/
theorem claim_C1_roll_of_n_dice (n m : ℕ) (hm : 0 < m) (R : ℕ → ℤ)
    (hR : ∀ i, i < n → 1 ≤ R i ∧ R i ≤ (m : ℤ))
    (s : String)
    (hs : tokenize s = [Token.number n, Token.dieRoll, Token.number m]) :
    (evaluate R s initState).1
      = Except.ok ([rollEntryString n (m : ℤ) ((List.range n).map R).sum
            ((List.range n).map R)],
          PyVal.pFloat (((List.range n).map R).sum : ℚ)) ∧
    rollLoop R (m : ℤ) n 0 = ((List.range n).map R, n) ∧
    ((List.range n).map R).length = n ∧
    (∀ v ∈ (List.range n).map R, 1 ≤ v ∧ v ≤ (m : ℤ)) ∧
    (n : ℤ) ≤ ((List.range n).map R).sum ∧
    ((List.range n).map R).sum ≤ (n : ℤ) * m := by
  have hpos : (0 : ℤ) < (m : ℤ) := by exact_mod_cast hm
  have hmap : (List.range n).map (fun i => R (0 + i)) = (List.range n).map R := by
    apply List.map_congr_left
    intro i _
    rw [Nat.zero_add]
  have hloop : rollLoop R (m : ℤ) n 0 = ((List.range n).map R, n) := by
    rw [rollLoop_draws R (m : ℤ) (Or.inl hpos) n 0, hmap, Nat.zero_add]
  have hmem : ∀ v ∈ (List.range n).map R, 1 ≤ v ∧ v ≤ (m : ℤ) := by
    intro v hv
    obtain ⟨i, hi, rfl⟩ := List.mem_map.mp hv
    exact hR i (List.mem_range.mp hi)
  have hlen : ((List.range n).map R).length = n := by simp
  have hsum := sum_bounds_of_mem ((List.range n).map R) (m : ℤ) hmem
  rw [hlen] at hsum
  have hp : parseString s = Except.ok (Expr.roll (Expr.lit n) (Expr.lit m)) := by
    rw [parseString, hs, parseTokens_number_die_number]
  refine ⟨?_, hloop, hlen, hmem, hsum.1, hsum.2⟩
  have hroll := rollProduction_nat_operands R n m hm [] 0
  rw [hmap, Nat.zero_add] at hroll
  simp only [evaluate, hp, evalExpr, initState, hroll]
  simp [pyFloat, PyVal.toQ]

/-- **C6.** Operator precedence, lowest to highest, is `+ -` < `* /` <
unary `-` < `d`, with the binary operators left-associative: witnessed by the
parse trees of representative inputs for each adjacent precedence pair and
for associativity.  Consequently `"2+3d1"` parses as `2+(3d1)` and (for any
in-bounds randomness source, since every `d1` die requests `randint(1,1)`)
evaluates to `5`, not as `(2+3)d1`. -/
theorem claim_C6_precedence (R : ℕ → ℤ)
    (hR : ∀ i, i < 3 → 1 ≤ R i ∧ R i ≤ (1 : ℤ)) :
    parseString "2+3d1"
      = Except.ok (Expr.add (Expr.lit 2) (Expr.roll (Expr.lit 3) (Expr.lit 1))) ∧
    parseString "1-2-3"
      = Except.ok (Expr.sub (Expr.sub (Expr.lit 1) (Expr.lit 2)) (Expr.lit 3)) ∧
    parseString "2*3+4"
      = Except.ok (Expr.add (Expr.mul (Expr.lit 2) (Expr.lit 3)) (Expr.lit 4)) ∧
    parseString "2+3*4"
      = Except.ok (Expr.add (Expr.lit 2) (Expr.mul (Expr.lit 3) (Expr.lit 4))) ∧
    parseString "12/3/2"
      = Except.ok (Expr.div (Expr.div (Expr.lit 12) (Expr.lit 3)) (Expr.lit 2)) ∧
    parseString "-2*3"
      = Except.ok (Expr.mul (Expr.neg (Expr.lit 2)) (Expr.lit 3)) ∧
    parseString "-2d3"
      = Except.ok (Expr.neg (Expr.roll (Expr.lit 2) (Expr.lit 3))) ∧
    parseString "2d3d4"
      = Except.ok (Expr.roll (Expr.roll (Expr.lit 2) (Expr.lit 3)) (Expr.lit 4)) ∧
    parseString "2*3d4"
      = Except.ok (Expr.mul (Expr.lit 2) (Expr.roll (Expr.lit 3) (Expr.lit 4))) ∧
    (evaluate R "2+3d1" initState).1
      = Except.ok (["3d1=3(🎲1 🎲1 🎲1)", "2+3=5"], PyVal.pFloat 5) := by
  have h0 : R 0 = 1 := by have := hR 0 (by omega); omega
  have h1 : R 1 = 1 := by have := hR 1 (by omega); omega
  have h2 : R 2 = 1 := by have := hR 2 (by omega); omega
  refine ⟨by decide, by decide, by decide, by decide, by decide, by decide,
    by decide, by decide, by decide, ?_⟩
  have hp : parseString "2+3d1"
      = Except.ok (Expr.add (Expr.lit 2) (Expr.roll (Expr.lit 3) (Expr.lit 1))) := by
    decide
  have hl : (List.range 3).map (fun i => (0 : ℕ) + i) = [0, 1, 2] := by decide
  have hroll := rollProduction_nat_operands R 3 1 (by norm_num) [] 0
  rw [show (List.range 3).map (fun i => R (0 + i))
      = ((List.range 3).map (fun i => (0 : ℕ) + i)).map R by rw [List.map_map]; rfl,
    hl] at hroll
  simp only [List.map_cons, List.map_nil, h0, h1, h2] at hroll
  simp only [evaluate, hp, evalExpr, initState, hroll]
  norm_num [pyAdd, pyStr, pyFloat, PyVal.toQ]
  decide

/-- Witness for C1: `n = 2`, `m = 6`, the constant-4 oracle (in bounds for
d6), input `"2d6"`; two dice are rolled and the total is `8 ∈ [2, 12]`. -/
theorem claim_C1_roll_of_n_dice_witness :
    0 < 6 ∧
    (∀ i, i < 2 → 1 ≤ (fun _ => (4 : ℤ)) i ∧ (fun _ => (4 : ℤ)) i ≤ ((6 : ℕ) : ℤ)) ∧
    tokenize "2d6" = [Token.number 2, Token.dieRoll, Token.number 6] ∧
    (evaluate (fun _ => (4 : ℤ)) "2d6" initState).1
      = Except.ok (["2d6=8(🎲4 🎲4)"], PyVal.pFloat 8) := by
  have h := claim_C1_roll_of_n_dice 2 6 (by norm_num) (fun _ => (4 : ℤ))
    (by decide) "2d6" (by decide)
  refine ⟨by norm_num, by decide, by decide, ?_⟩
  rw [h.1]
  decide

/-- Witness for C6: the constant-1 oracle is in bounds for every `d1` die,
and `"2+3d1"` evaluates to `5` with the `2+(3d1)` trace. -/
theorem claim_C6_precedence_witness :
    (∀ i, i < 3 → 1 ≤ (fun _ => (1 : ℤ)) i ∧ (fun _ => (1 : ℤ)) i ≤ (1 : ℤ)) ∧
    (evaluate (fun _ => (1 : ℤ)) "2+3d1" initState).1
      = Except.ok (["3d1=3(🎲1 🎲1 🎲1)", "2+3=5"], PyVal.pFloat 5) :=
  ⟨by decide,
    (claim_C6_precedence (fun _ => (1 : ℤ)) (by decide)).2.2.2.2.2.2.2.2.2⟩

/-- **C7.** On every completed top-level evaluation the returned result is
the pair of the accumulated trace and `float(value)` (the `statement`
production, lines 51-61), and the instance's step-log buffer is reset to
empty as the result is returned; hence a second sequential evaluation on the
same instance behaves exactly as on a fresh instance — neither result's
trace contains entries produced by the other — and the first returned trace,
being the list value handed back before `self.step_log` is rebound (not
mutated), is unchanged by the second evaluation. -/
theorem claim_C7_trace_isolation (R1 R2 : ℕ → ℤ) (s1 s2 : String)
    (t1 : List String) (v1 : PyVal) (st1 : DiceParserState)
    (h1 : evaluate R1 s1 initState = (Except.ok (t1, v1), some st1)) :
    st1 = initState ∧
    (∃ e val k, parseString s1 = Except.ok e ∧
        evalExpr R1 e [] 0 = (Except.ok val, t1, k) ∧ v1 = pyFloat val) ∧
    evaluate R2 s2 st1 = evaluate R2 s2 initState := by
  obtain ⟨hst, he⟩ := evaluate_ok_shape R1 s1 initState t1 v1 st1 h1
  exact ⟨hst, by simpa [initState] using he, by rw [hst]⟩

/-- Witness for C7: a first evaluation of `"1+2"` succeeds, leaves the
instance state empty, and a second evaluation of `"2*3"` from that state
equals a fresh-instance evaluation. -/
theorem claim_C7_trace_isolation_witness :
    evaluate (fun _ => (1 : ℤ)) "1+2" initState
      = (Except.ok (["1+2=3"], PyVal.pFloat 3), some initState) ∧
    (initState = initState ∧
      (∃ e val k, parseString "1+2" = Except.ok e ∧
          evalExpr (fun _ => (1 : ℤ)) e [] 0 = (Except.ok val, ["1+2=3"], k) ∧
          PyVal.pFloat 3 = pyFloat val) ∧
      evaluate (fun _ => (1 : ℤ)) "2*3" initState
        = evaluate (fun _ => (1 : ℤ)) "2*3" initState) :=
  ⟨by decide,
    claim_C7_trace_isolation (fun _ => (1 : ℤ)) (fun _ => (1 : ℤ)) "1+2" "2*3"
      ["1+2=3"] (PyVal.pFloat 3) initState (by decide)⟩

/-- **C8.** Whenever the token stream of an input cannot be reduced to a
valid `statement` (the parse step yields the syntax-error signal — `sly`'s
`parse` returning `None`, surfaced by the caller's `TypeError` handler),
the evaluation's result is exactly the distinguishable syntax-error signal —
never a crash or a partial/garbage numeric result.  In particular `"+3"`,
`"3+"`, `"(3"` and the empty input are syntax errors.  (The theorem speaks
only of the returned result: the instance's `step_log` may retain entries of
reductions `sly` completed before detecting the error, a state the caller
discards along with the failed parser.) -/
theorem claim_C8_syntax_errors (R : ℕ → ℤ) (s : String) (st : DiceParserState)
    (h : parseString s = Except.error ParseError.syntaxError) :
    (evaluate R s st).1 = Except.error EvalError.syntaxError ∧
    parseString "+3" = Except.error ParseError.syntaxError ∧
    parseString "3+" = Except.error ParseError.syntaxError ∧
    parseString "(3" = Except.error ParseError.syntaxError ∧
    parseString "" = Except.error ParseError.syntaxError := by
  refine ⟨?_, by decide, by decide, by decide, by decide⟩
  simp only [evaluate, h]

/-- Witness for C8: `"+3"` is a syntax error and evaluates to the
syntax-error signal. -/
theorem claim_C8_syntax_errors_witness :
    parseString "+3" = Except.error ParseError.syntaxError ∧
    (evaluate (fun _ => (1 : ℤ)) "+3" initState).1
      = Except.error EvalError.syntaxError :=
  ⟨by decide,
    (claim_C8_syntax_errors (fun _ => (1 : ℤ)) "+3" initState (by decide)).1⟩

/-- **C3 counterexample.** Division by zero is *not* a floating-point no-op
in this code: Python's `/` raises `ZeroDivisionError` (there are no IEEE
infinities or NaNs here), so `"1/0"` aborts with that error instead of
continuing with a value. -/
theorem claim_C3_counterexample :
    (evaluate (fun _ => (1 : ℤ)) "1/0" initState).1
      = Except.error EvalError.zeroDivisionError := by decide

/-- **C3 amended.** For every pair of evaluated operands with zero divisor,
the DIVIDE production raises `ZeroDivisionError`: evaluation of the
enclosing expression aborts with that error (and in `toys.py` the error is
not caught by the `TypeError` handler, so it propagates), rather than
producing an infinite or NaN value. -/
theorem claim_C3_div_by_zero_raises (a b : PyVal) (h : b.toQ = 0) :
    pyDiv a b = Except.error PyError.zeroDivisionError ∧
    ∀ (R : ℕ → ℤ) (l r : Expr) (log log1 log2 : List String) (k k1 k2 : ℕ),
      evalExpr R l log k = (Except.ok a, log1, k1) →
      evalExpr R r log1 k1 = (Except.ok b, log2, k2) →
      evalExpr R (Expr.div l r) log k
        = (Except.error PyError.zeroDivisionError, log2, k2) := by
  have hd : pyDiv a b = Except.error PyError.zeroDivisionError := by
    simp [pyDiv, h]
  refine ⟨hd, ?_⟩
  intro R l r log log1 log2 k k1 k2 h1 h2
  simp only [evalExpr, h1, h2, hd]

/-- Witness for C3 amended: `1/0` raises. -/
theorem claim_C3_div_by_zero_raises_witness :
    (PyVal.pInt 0).toQ = 0 ∧
    pyDiv (PyVal.pInt 1) (PyVal.pInt 0) = Except.error PyError.zeroDivisionError :=
  ⟨by decide,
    (claim_C3_div_by_zero_raises (PyVal.pInt 1) (PyVal.pInt 0) (by decide)).1⟩

/-- **C10 counterexample.** Not every production produces a floating-point
value: the `NUMBER` production returns a Python `int` (`int(p.NUMBER)`,
line 160), integer arithmetic stays `int`, and the trace of `"1+2"`
accordingly reads `1+2=3`, not `1.0+2.0=3.0`.  Only the final `statement`
value is converted with `float`. -/
theorem claim_C10_counterexample :
    evalExpr (fun _ => (1 : ℤ)) (Expr.lit 3) [] 0
      = (Except.ok (PyVal.pInt 3), [], 0) ∧
    (PyVal.pInt 3).isFloat = false ∧
    (evaluate (fun _ => (1 : ℤ)) "1+2" initState).1
      = Except.ok (["1+2=3"], PyVal.pFloat 3) ∧
    ["1+2=3"] ≠ ["1.0+2.0=3.0"] := by
  exact ⟨by decide, by decide, by decide, by decide⟩

/-- **C10 amended.** Productions produce Python numbers that stay `int` for
integer operands (the `NUMBER` production returns an `int`); floats enter
through division (always) or float operands.  The `statement` production
converts the final value with `float()`, so every successful top-level
result is a float, and the caller's presentation step (`toys.py`
lines 397-398) renders it as an integer exactly when it has no fractional
part. -/
theorem claim_C10_value_representation (R : ℕ → ℤ) (s : String)
    (st st' : DiceParserState) (t : List String) (v : PyVal)
    (h : evaluate R s st = (Except.ok (t, v), some st')) :
    v.isFloat = true ∧
    (∀ (n : ℕ) (log : List String) (k : ℕ),
        evalExpr R (Expr.lit n) log k = (Except.ok (PyVal.pInt n), log, k)) ∧
    (∀ q : ℚ, q.den = 1 → presentedResult q = PyVal.pInt q.num) ∧
    (∀ q : ℚ, q.den ≠ 1 → presentedResult q = PyVal.pFloat q) := by
  obtain ⟨-, e, val, k, -, -, hv⟩ := evaluate_ok_shape R s st t v st' h
  refine ⟨by rw [hv]; simp [pyFloat, PyVal.isFloat], ?_, ?_, ?_⟩
  · intro n log k
    simp [evalExpr]
  · intro q hq
    simp [presentedResult, hq]
  · intro q hq
    simp [presentedResult, hq]

/-- Witness for C10 amended: `"3"` evaluates to the float `3.0` and is
presented as the integer `3`. -/
theorem claim_C10_value_representation_witness :
    evaluate (fun _ => (1 : ℤ)) "3" initState
      = (Except.ok ([], PyVal.pFloat 3), some initState) ∧
    (PyVal.pFloat 3).isFloat = true ∧
    presentedResult 3 = PyVal.pInt (3 : ℚ).num := by
  have h := claim_C10_value_representation (fun _ => (1 : ℤ)) "3" initState
    initState [] (PyVal.pFloat 3) (by decide)
  exact ⟨by decide, h.1, h.2.2.1 3 (by norm_num)⟩

/-- The characters `DiceLexer` recognises: digits (`NUMBER`), the seven
one-character tokens, and the ignored whitespace characters.  Every other
character reaches `DiceLexer.error` and is skipped. -/
def recognizedChar (c : Char) : Bool :=
  c.isDigit || (symbolToken c).isSome || c = ' ' || c = '\t' || c = '\n'

/-- **C9 counterexample.** The claim that an input always "evaluates
identically to the same string with that character removed" fails when the
skipped character splits a digit run: `'@'` is unrecognised and skipped, yet
`"1@2"` lexes as two `NUMBER` tokens (maximal munch ends at `'@'`) and is a
syntax error, while `"12"` evaluates to `12`. -/
theorem claim_C9_counterexample :
    recognizedChar '@' = false ∧
    tokenize "1@2" = [Token.number 1, Token.number 2] ∧
    (evaluate (fun _ => (1 : ℤ)) "1@2" initState).1
      = Except.error EvalError.syntaxError ∧
    (evaluate (fun _ => (1 : ℤ)) "12" initState).1
      = Except.ok ([], PyVal.pFloat 12) := by decide

/-- **C9 amended.** Any character that is not a digit, one of the seven
symbol characters, or whitespace is silently skipped by the tokenizer and
scanning continues with the next character (so outside a digit run the token
stream equals that of the string with the character removed; inside a digit
run the skip additionally terminates the maximal-munch `NUMBER` lexeme, see
the counterexample); in particular `"2@+3"` evaluates identically to
`"2+3"`, yielding `5`. -/
theorem claim_C9_lexical_skip (c : Char) (rest : List Char)
    (h : recognizedChar c = false) :
    tokenizeAux (c :: rest) none = tokenizeAux rest none ∧
    evaluate (fun _ => (1 : ℤ)) "2@+3" initState
      = evaluate (fun _ => (1 : ℤ)) "2+3" initState ∧
    (evaluate (fun _ => (1 : ℤ)) "2@+3" initState).1
      = Except.ok (["2+3=5"], PyVal.pFloat 5) := by
  simp only [recognizedChar, Bool.or_eq_false_iff, decide_eq_false_iff_not] at h
  obtain ⟨⟨⟨⟨hdig, hsym⟩, _⟩, _⟩, _⟩ := h
  have hnone : symbolToken c = none := by
    cases hs : symbolToken c with
    | none => rfl
    | some t => rw [hs] at hsym; simp at hsym
  refine ⟨?_, by decide, by decide⟩
  simp only [tokenizeAux, hdig, Bool.false_eq_true, if_false, hnone,
    flushNumber, List.nil_append]

/-- Witness for C9 amended: `'@'` before `"+3"` is skipped, and `"2@+3"`
evaluates to `5` exactly like `"2+3"`. -/
theorem claim_C9_lexical_skip_witness :
    recognizedChar '@' = false ∧
    tokenizeAux ('@' :: "+3".data) none = tokenizeAux "+3".data none ∧
    (evaluate (fun _ => (1 : ℤ)) "2@+3" initState).1
      = Except.ok (["2+3=5"], PyVal.pFloat 5) := by
  have h := claim_C9_lexical_skip '@' "+3".data (by decide)
  exact ⟨by decide, h.1, h.2.2⟩

/-- **C4 counterexample.** A roll entry with zero outcomes does not have the
claimed `"{count}d{sides}={total}()"` form with an empty outcome list: the
`step_string[:-1]` strip (meant to drop the loop's trailing space) removes
the opening parenthesis when no outcome was appended, so `"0d0"` produces
the roll entry `"0d0=0)"`. -/
theorem claim_C4_counterexample :
    (evaluate (fun _ => (1 : ℤ)) "0d0" initState).1
      = Except.ok (["0d0=0)"], PyVal.pFloat 0) ∧
    "0d0=0)" ≠ "0d0=0()" := by decide

/-- **C4 amended.** Every roll production appends exactly one roll trace
entry; whenever at least one die is rolled it has exactly the claimed form
`"{count}d{sides}={total}({outcome1} {outcome2} ...)"` — each outcome led by
the marker glyph, single spaces between outcomes, no trailing space before
the closing parenthesis.  With zero outcomes the `[:-1]` strip removes the
opening parenthesis instead, yielding `"{count}d{sides}={total})"`; in
particular `"0d0"` evaluates to `0` with no ceil entries and the single roll
entry `"0d0=0)"`. -/
theorem claim_C4_roll_entry_format (count : ℕ) (dieMax total : ℤ)
    (vals : List ℤ) (hne : vals ≠ []) :
    rollEntryString count dieMax total vals
      = toString count ++ "d" ++ toString dieMax ++ "=" ++ toString total ++ "("
          ++ spaceSeparated (vals.map dieGlyph) ++ ")" ∧
    rollEntryString 0 0 0 [] = "0d0=0)" ∧
    (evaluate (fun _ => (1 : ℤ)) "0d0" initState).1
      = Except.ok (["0d0=0)"], PyVal.pFloat 0) :=
  ⟨rollEntryString_of_ne_nil count dieMax total vals hne, by decide, by decide⟩

/-- Witness for C4 amended: a two-outcome roll entry in the claimed form. -/
theorem claim_C4_roll_entry_format_witness :
    ([(3 : ℤ), 5] ≠ []) ∧
    rollEntryString 2 6 8 [3, 5]
      = toString 2 ++ "d" ++ toString (6 : ℤ) ++ "=" ++ toString (8 : ℤ) ++ "("
          ++ spaceSeparated ([(3 : ℤ), 5].map dieGlyph) ++ ")" ∧
    rollEntryString 2 6 8 [3, 5] = "2d6=8(🎲3 🎲5)" := by
  have h := claim_C4_roll_entry_format 2 6 8 [3, 5] (by decide)
  exact ⟨by decide, h.1, by decide⟩

theorem rollLoop_six_three (R : ℕ → ℤ) :
    rollLoop R 6 3 0 = ([R 0, R 1, R 2], 3) := by
  rw [rollLoop_draws R 6 (Or.inl (by norm_num)) 3 0,
    show List.range 3 = [0, 1, 2] from rfl]
  simp

theorem rollProduction_neg_three_six (R : ℕ → ℤ) (log : List String) :
    rollProduction R (PyVal.pInt (-3)) (PyVal.pInt 6) log 0
      = (PyVal.pInt (-([R 0, R 1, R 2].sum)),
         log ++ [rollEntryString 3 6 [R 0, R 1, R 2].sum [R 0, R 1, R 2],
                 invertEntry [R 0, R 1, R 2].sum],
         3) := by
  have hchar := rollProduction_characterization R (PyVal.pInt (-3)) (PyVal.pInt 6) log 0
  rw [show pyCeil (PyVal.pInt (-3)) = -3 by decide,
    show pyCeil (PyVal.pInt 6) = 6 by decide,
    show ((-3 : ℤ)).natAbs = 3 from rfl, rollLoop_six_three R] at hchar
  simpa [PyVal.isIntegral] using hchar

theorem rollProduction_pos_three_six (R : ℕ → ℤ) (log : List String) :
    rollProduction R (PyVal.pInt 3) (PyVal.pInt 6) log 0
      = (PyVal.pInt [R 0, R 1, R 2].sum,
         log ++ [rollEntryString 3 6 [R 0, R 1, R 2].sum [R 0, R 1, R 2]],
         3) := by
  have hchar := rollProduction_characterization R (PyVal.pInt 3) (PyVal.pInt 6) log 0
  rw [show pyCeil (PyVal.pInt 3) = 3 by decide,
    show pyCeil (PyVal.pInt 6) = 6 by decide,
    show ((3 : ℤ)).natAbs = 3 from rfl, rollLoop_six_three R] at hchar
  simpa [PyVal.isIntegral] using hchar

theorem evalExpr_roll_ok (R : ℕ → ℤ) (l r : Expr) (log log1 log2 : List String)
    (k k1 k2 : ℕ) (a b : PyVal)
    (hl : evalExpr R l log k = (Except.ok a, log1, k1))
    (hr : evalExpr R r log1 k1 = (Except.ok b, log2, k2)) :
    evalExpr R (Expr.roll l r) log k
      = (Except.ok (rollProduction R a b log2 k2).1,
         (rollProduction R a b log2 k2).2.1, (rollProduction R a b log2 k2).2.2) := by
  simp only [evalExpr, hl, hr]

theorem evalExpr_neg_ok (R : ℕ → ℤ) (e : Expr) (log log1 : List String)
    (k k1 : ℕ) (a : PyVal)
    (he : evalExpr R e log k = (Except.ok a, log1, k1)) :
    evalExpr R (Expr.neg e) log k
      = (Except.ok (pyNeg a),
         log1 ++ ["-(" ++ pyStr a ++ ")=" ++ pyStr (pyNeg a)], k1) := by
  simp only [evalExpr, he]

/-- **C2 counterexample.** `"-3d6"` does not set `invert`: it parses as
unary minus applied to `3d6` (`DIE_ROLL` binds tighter than `UNARY_MINUS`),
so the dice-count operand of its roll production is `3` — not negative —
and `invert_result` (the `count < 0` test of `Parsing.py` lines 74-80) is
false there; the negation trace entry it shows comes from the
`UNARY_MINUS` production, not from the roll's inversion path. -/
theorem claim_C2_counterexample :
    parseString "-3d6" = Except.ok (Expr.neg (Expr.roll (Expr.lit 3) (Expr.lit 6))) ∧
    pyCeil (PyVal.pInt 3) = 3 ∧
    rollInvert (pyCeil (PyVal.pInt 3)) = false := by decide

/-- **C2 amended.** For any roll production whose evaluated dice-count
operand is negative, `invert_result` is set, exactly `abs(count)` dice are
rolled, the negation trace entry is appended directly after the roll entry,
and the production's value is the negated total.  `"(2-5)d6"` reaches this
path: its count operand evaluates to `-3`, it rolls exactly 3 dice and its
total is the negation of the same three draws.  `"-3d6"` parses instead as
`-(3d6)`, so its roll production sees count `3` and `invert_result` false —
but it rolls exactly the same 3 dice and appends an identical negation
entry via the `UNARY_MINUS` production, so the two inputs produce the same
(roll entry, negation entry) trace tail and the same negated total. -/
theorem claim_C2_inversion (R : ℕ → ℤ) :
    (∀ (a b : PyVal) (log : List String) (k : ℕ), pyCeil a < 0 →
      rollInvert (pyCeil a) = true ∧
      (rollProduction R a b log k).1
        = PyVal.pInt (-(rollLoop R (pyCeil b) (pyCeil a).natAbs k).1.sum) ∧
      (rollProduction R a b log k).2.1
        = log ++ (if needsCeilEntry a then [ceilEntry a (pyCeil a)] else [])
            ++ (if needsCeilEntry b then [ceilEntry b (pyCeil b)] else [])
            ++ [rollEntryString (pyCeil a).natAbs (pyCeil b)
                  (rollLoop R (pyCeil b) (pyCeil a).natAbs k).1.sum
                  (rollLoop R (pyCeil b) (pyCeil a).natAbs k).1,
                invertEntry (rollLoop R (pyCeil b) (pyCeil a).natAbs k).1.sum]) ∧
    evaluate R "(2-5)d6" initState
      = (Except.ok (["2-5=-3",
            rollEntryString 3 6 [R 0, R 1, R 2].sum [R 0, R 1, R 2],
            invertEntry [R 0, R 1, R 2].sum],
          PyVal.pFloat ((-([R 0, R 1, R 2].sum) : ℤ) : ℚ)), some initState) ∧
    evaluate R "-3d6" initState
      = (Except.ok ([rollEntryString 3 6 [R 0, R 1, R 2].sum [R 0, R 1, R 2],
            invertEntry [R 0, R 1, R 2].sum],
          PyVal.pFloat ((-([R 0, R 1, R 2].sum) : ℤ) : ℚ)), some initState) := by
  refine ⟨?_, ?_, ?_⟩
  · intro a b log k h
    have hchar := rollProduction_characterization R a b log k
    refine ⟨by simp [rollInvert, h], ?_, ?_⟩
    · rw [hchar]
      simp [h]
    · rw [hchar]
      simp only [needsCeilEntry_eq_not_isIntegral, Bool.not_eq_true']
      by_cases h1 : a.isIntegral <;> by_cases h2 : b.isIntegral <;>
        simp [h1, h2, h, List.append_assoc]
  · have hp : parseString "(2-5)d6"
        = Except.ok (Expr.roll (Expr.paren (Expr.sub (Expr.lit 2) (Expr.lit 5)))
            (Expr.lit 6)) := by decide
    have hsub : evalExpr R (Expr.paren (Expr.sub (Expr.lit 2) (Expr.lit 5))) [] 0
        = (Except.ok (PyVal.pInt (-3)), ["2-5=-3"], 0) := by rfl
    have h6 : evalExpr R (Expr.lit 6) ["2-5=-3"] 0
        = (Except.ok (PyVal.pInt 6), ["2-5=-3"], 0) := rfl
    have hroll := evalExpr_roll_ok R _ _ [] ["2-5=-3"] ["2-5=-3"] 0 0 0
      (PyVal.pInt (-3)) (PyVal.pInt 6) hsub h6
    rw [rollProduction_neg_three_six R ["2-5=-3"]] at hroll
    simp only [evaluate, hp, initState, hroll]
    simp [pyFloat, PyVal.toQ]
  · have hp : parseString "-3d6"
        = Except.ok (Expr.neg (Expr.roll (Expr.lit 3) (Expr.lit 6))) := by decide
    have h3 : evalExpr R (Expr.lit 3) [] 0
        = (Except.ok (PyVal.pInt 3), [], 0) := rfl
    have h6 : evalExpr R (Expr.lit 6) [] 0
        = (Except.ok (PyVal.pInt 6), [], 0) := rfl
    have hroll := evalExpr_roll_ok R _ _ [] [] [] 0 0 0
      (PyVal.pInt 3) (PyVal.pInt 6) h3 h6
    rw [rollProduction_pos_three_six R []] at hroll
    have hneg := evalExpr_neg_ok R (Expr.roll (Expr.lit 3) (Expr.lit 6)) [] _ 0 3
      (PyVal.pInt [R 0, R 1, R 2].sum) hroll
    simp only [evaluate, hp, initState, hneg]
    simp [pyFloat, pyNeg, pyStr, PyVal.toQ, invertEntry]

/-- Witness for C2 amended: with the constant-2 oracle, the roll production
on count operand `-3` sets the inversion flag, rolls 3 dice, appends the
negation entry after the roll entry, and negates the total. -/
theorem claim_C2_inversion_witness :
    pyCeil (PyVal.pInt (-3)) < 0 ∧
    (rollInvert (pyCeil (PyVal.pInt (-3))) = true ∧
      (rollProduction (fun _ => (2 : ℤ)) (PyVal.pInt (-3)) (PyVal.pInt 6) [] 0).1
        = PyVal.pInt (-(rollLoop (fun _ => (2 : ℤ)) (pyCeil (PyVal.pInt 6))
            (pyCeil (PyVal.pInt (-3))).natAbs 0).1.sum) ∧
      (rollProduction (fun _ => (2 : ℤ)) (PyVal.pInt (-3)) (PyVal.pInt 6) [] 0).2.1
        = [] ++ (if needsCeilEntry (PyVal.pInt (-3)) then
              [ceilEntry (PyVal.pInt (-3)) (pyCeil (PyVal.pInt (-3)))] else [])
            ++ (if needsCeilEntry (PyVal.pInt 6) then
              [ceilEntry (PyVal.pInt 6) (pyCeil (PyVal.pInt 6))] else [])
            ++ [rollEntryString (pyCeil (PyVal.pInt (-3))).natAbs (pyCeil (PyVal.pInt 6))
                  (rollLoop (fun _ => (2 : ℤ)) (pyCeil (PyVal.pInt 6))
                    (pyCeil (PyVal.pInt (-3))).natAbs 0).1.sum
                  (rollLoop (fun _ => (2 : ℤ)) (pyCeil (PyVal.pInt 6))
                    (pyCeil (PyVal.pInt (-3))).natAbs 0).1,
                invertEntry (rollLoop (fun _ => (2 : ℤ)) (pyCeil (PyVal.pInt 6))
                  (pyCeil (PyVal.pInt (-3))).natAbs 0).1.sum]) :=
  ⟨by decide,
    (claim_C2_inversion (fun _ => (2 : ℤ))).1 (PyVal.pInt (-3)) (PyVal.pInt 6) [] 0
      (by decide)⟩
